import Mathlib

/-!
Shallow embedding of the selection, filter-evaluation and visual-state wiring of
src/westend_map/frontend/templates/wiring.js.

Modelling conventions:
* JS numbers used as counters are modelled as `Int` (the code only ever adds
  integer deltas and clamps at zero).
* JS numbers used as metric values, units and thresholds are modelled as `ℚ`
  (the code compares and divides them; we idealize IEEE doubles as exact
  rationals).
* The logarithmic slider mapping uses `Real.exp` / `Real.log`, idealizing IEEE
  doubles as real numbers.
* A Leaflet marker is reduced to the fields the wiring mutates:
  `_selectionRefs`, `_isFiltered`, `_passesMembership`, and its current visual
  state.  The visual state is abstracted into three categories exactly
  mirroring the three `setStyle` payloads the code can apply to a marker:
  `highlight` (the accent-stroke payload of `highlightMarker(_, true)`),
  `base` (the weight-0 baseline payload of `highlightMarker(_, false)` /
  `setMarkerVisibility(_, true)` / `applyZoomScaling`), and `hidden`
  (the `fillOpacity:0, radius 0` payload of `setMarkerVisibility(_, false)`).
* Likewise a block layer carries `_selectionRefs`, `_isFiltered` and one of the
  three styles the code applies to it: the choropleth base style set by
  `resetBlockStyle`, the highlight style of `highlightBlock(_, true)`, and the
  pale filtered style set by `setBlockFiltered(_, true)`.
* DOM objects (table rows, checkboxes) are modelled as records carrying the
  attributes the code reads (`data-bid`, `data-area`, `data-owner`, per-metric
  `data-<attr>` values) and the two mutable bits it writes (the `hidden` class
  and the checkbox state).
* The global indices (`buildingIndex`, `blocksIndex`, `blockBuildingIndex`,
  `ownerIndex`, `membershipData`) are association lists keyed by the id strings
  the code uses; JS objects have unique keys, which proofs assume explicitly
  where needed.  `ownerIndex` holds building ids standing for the marker
  references the code stores (each building id names one marker object).
-/

namespace Wiring

/-- Visual state categories of a building marker; see the module docstring. -/
inductive MStyle
  | base
  | highlight
  | hidden
deriving DecidableEq

/-- The marker fields mutated by wiring.js. -/
structure Marker where
  selectionRefs : Int
  isFiltered : Bool
  style : MStyle
  passesMembership : Bool
deriving DecidableEq

/-- Visual state categories of a block polygon layer. -/
inductive BStyle
  | base
  | highlight
  | filteredS
deriving DecidableEq

/-- The block layer fields mutated by wiring.js. -/
structure Block where
  selectionRefs : Int
  isFiltered : Bool
  style : BStyle
deriving DecidableEq

/-- Source `highlightMarker(marker, on)` (wiring.js 142-169): no-op on a
filtered marker, otherwise applies the accent highlight payload or the
weight-0 baseline payload. -/
def highlightMarker (m : Marker) (turnOn : Bool) : Marker :=
  if m.isFiltered then m
  else { m with style := if turnOn then MStyle.highlight else MStyle.base }

/-- Source `adjustMarkerSelection(marker, delta)` (wiring.js 171-178): add the
delta, clamp at zero, and when the marker is not filtered recompute the
highlight purely from `refs > 0`. -/
def adjustMarkerSelection (m : Marker) (delta : Int) : Marker :=
  let refs0 := m.selectionRefs + delta
  let refs := if refs0 < 0 then 0 else refs0
  let m' := { m with selectionRefs := refs }
  if m'.isFiltered = false then highlightMarker m' (decide (0 < refs)) else m'

/-- Source `setMarkerVisibility(marker, visible)` (wiring.js 189-219): hiding
zeroes the refcount and applies the invisible style; showing restores the
baseline and re-applies the highlight when the (preserved) refcount is
positive. -/
def setMarkerVisibility (m : Marker) (visible : Bool) : Marker :=
  let m' := { m with isFiltered := !visible }
  if visible = false then
    { m' with selectionRefs := 0, style := MStyle.hidden }
  else
    let m'' := { m' with style := MStyle.base }
    if 0 < m''.selectionRefs then highlightMarker m'' true else m''

/-- Source `buildingHover(bid, on)` (wiring.js 352-360), the per-marker part:
filtered markers are skipped; hover-on highlights directly; hover-off restores
the baseline only when the refcount is zero. -/
def buildingHover (m : Marker) (turnOn : Bool) : Marker :=
  if m.isFiltered then m
  else if turnOn then highlightMarker m true
  else if m.selectionRefs = 0 then highlightMarker m false
  else m

/-- Source `updateMarkerColorAppearance(marker)` (wiring.js 761-782), the
style-affecting part: filtered markers keep their style; otherwise the style
is recomputed from `refs > 0` (the base-color recolouring itself is outside
the abstracted style categories). -/
def updateMarkerColorAppearance (m : Marker) : Marker :=
  if m.isFiltered then m
  else if 0 < m.selectionRefs then highlightMarker m true
  else highlightMarker m false

/-- Operations that wiring.js applies to a single building marker. -/
inductive MOp
  | adjust (delta : Int)
  | setVisible (visible : Bool)
  | hover (turnOn : Bool)
  | refresh

/-- One step of the marker state machine. -/
def stepM (m : Marker) : MOp → Marker
  | MOp.adjust d => adjustMarkerSelection m d
  | MOp.setVisible v => setMarkerVisibility m v
  | MOp.hover turnOn => buildingHover m turnOn
  | MOp.refresh => updateMarkerColorAppearance m

/-- Marker state right after `applyMarkerMetadata` (wiring.js 265-316):
refcount 0, not filtered, baseline style, `_passesMembership = true`. -/
def initMarker : Marker :=
  { selectionRefs := 0, isFiltered := false, style := MStyle.base,
    passesMembership := true }

/-- Run a sequence of marker operations from the initial state. -/
def runM (ops : List MOp) : Marker := ops.foldl stepM initMarker

/-- Source `resetBlockStyle(layer)` (wiring.js 65-83), style category only:
restores the (choropleth or neutral) base style.  The concrete colours are
computed by `resetBlockStyleCore` below. -/
def resetBlockStyle (b : Block) : Block :=
  { b with style := BStyle.base }

/-- Source `highlightBlock(layer, on)` (wiring.js 97-111). -/
def highlightBlock (b : Block) (turnOn : Bool) : Block :=
  if b.isFiltered then b
  else if turnOn then { b with style := BStyle.highlight }
  else resetBlockStyle b

/-- Source `setBlockFiltered(blockId, filtered)` (wiring.js 85-95), the
per-layer part: filtering zeroes the refcount and applies the pale filtered
style; unfiltering restores the base style. -/
def setBlockFiltered (b : Block) (filtered : Bool) : Block :=
  let b' := { b with isFiltered := filtered }
  if filtered then { b' with selectionRefs := 0, style := BStyle.filteredS }
  else resetBlockStyle b'

/-- Source `adjustBlockSelection(layer, delta)` (wiring.js 180-187). -/
def adjustBlockSelection (b : Block) (delta : Int) : Block :=
  let refs0 := b.selectionRefs + delta
  let refs := if refs0 < 0 then 0 else refs0
  let b' := { b with selectionRefs := refs }
  if b'.isFiltered = false then highlightBlock b' (decide (0 < refs)) else b'

/-- Source `blockHover(blockId, on)` (wiring.js 362-370), per-layer part. -/
def blockHover (b : Block) (turnOn : Bool) : Block :=
  if b.isFiltered then b
  else if turnOn then highlightBlock b true
  else if b.selectionRefs = 0 then highlightBlock b false
  else b

/-- Operations that wiring.js applies to a single block layer. -/
inductive BOp
  | adjust (delta : Int)
  | setFiltered (filtered : Bool)
  | hover (turnOn : Bool)
  | reset

/-- One step of the block state machine.  The `reset` step models
`applyBlockColorScaling` (wiring.js 792-802), whose per-layer action calls
`resetBlockStyle` only on non-filtered layers; note it does not re-apply the
highlight of a positively-referenced block. -/
def stepB (b : Block) : BOp → Block
  | BOp.adjust d => adjustBlockSelection b d
  | BOp.setFiltered f => setBlockFiltered b f
  | BOp.hover turnOn => blockHover b turnOn
  | BOp.reset => if b.isFiltered then b else resetBlockStyle b

/-- Block state right after registry construction (wiring.js 456-477):
refcount 0, not filtered, base style applied by `resetBlockStyle`. -/
def initBlock : Block :=
  { selectionRefs := 0, isFiltered := false, style := BStyle.base }

/-- Run a sequence of block operations from the initial state. -/
def runB (ops : List BOp) : Block := ops.foldl stepB initBlock

/-- Source `setOwnerSelection(ownerKey, selected)` (wiring.js 221-226) applied
to the marker array stored in `ownerIndex[ownerKey]`: every owned marker is
adjusted by the same delta, filtered or not. -/
def setOwnerSelection (arr : List Marker) (selected : Bool) : List Marker :=
  arr.map (fun m => adjustMarkerSelection m (if selected then 1 else -1))

/-- One membership record of `members_payload` (wiring.js 297-298, 330-338). -/
structure MemberRecord where
  has_member_tag : Bool
  latest_membership_year : Option Int
deriving DecidableEq

/-- The membership criteria handed to `matchesFilters` (wiring.js 1178-1184):
`minYear = none` models the JS `null`. -/
structure FilterOpts where
  requireMember : Bool
  minYear : Option Int
deriving DecidableEq

/-- Source `matchesFilters(records, opts)` (wiring.js 318-340), translated
clause by clause: early `true` when no membership criterion is active, early
`false` when the record list is empty, then the two narrowing filters and the
final non-emptiness test.  A record with a `null` year fails the year
narrowing. -/
def matchesFilters (records : List MemberRecord) (opts : FilterOpts) : Bool :=
  if opts.requireMember = false ∧ opts.minYear = none then true
  else if records.isEmpty then false
  else
    let f1 := if opts.requireMember then records.filter (fun r => r.has_member_tag) else records
    let f2 := match opts.minYear with
      | none => f1
      | some y => f1.filter (fun r =>
          match r.latest_membership_year with
          | none => false
          | some yr => decide (y ≤ yr))
    !f2.isEmpty

/-- Modelled from the spec wording of the membership sub-rule (spec section
4.3): records are narrowed by the member tag when `requireMembership` is set,
then by the year threshold when `minYear` is set. -/
def narrowRecords (records : List MemberRecord) (opts : FilterOpts) : List MemberRecord :=
  let tagged := if opts.requireMember then records.filter (fun r => r.has_member_tag) else records
  match opts.minYear with
  | none => tagged
  | some y => tagged.filter (fun r =>
      match r.latest_membership_year with
      | none => false
      | some yr => decide (y ≤ yr))

/-- Modelled from the spec wording (spec section 4.3): membership passes when
neither criterion is set, otherwise iff the narrowed record set is
non-empty. -/
def membershipSpecVerdict (records : List MemberRecord) (opts : FilterOpts) : Bool :=
  if opts.requireMember = false ∧ opts.minYear = none then true
  else !(narrowRecords records opts).isEmpty

/-- JS `String.prototype.toLowerCase`, idealized to per-character lowering
(exact for the ASCII neighbourhood names the page uses). -/
def jsToLower (s : String) : String := String.mk (s.data.map Char.toLower)

/-- JS `String.prototype.trim`: strip leading and trailing whitespace. -/
def jsTrim (s : String) : String :=
  String.mk (((s.data.dropWhile Char.isWhitespace).reverse.dropWhile Char.isWhitespace).reverse)

/-- JS `value.toLowerCase().trim()` as applied to neighbourhood values and the
`data-area` attribute (wiring.js 1161, 1196). -/
def normHood (s : String) : String := jsTrim (jsToLower s)

/-- The neighbourhood sub-rule of `applyFilters` (wiring.js 1159-1201):
`hoodInputs` is the list of neighbourhood checkboxes as (value, checked)
pairs; `rowArea` is the row's raw `data-area` attribute. -/
def hoodRule (hoodInputs : List (String × Bool)) (rowArea : String) : Bool :=
  let selected := (hoodInputs.filter (fun p => p.2)).map (fun p => normHood p.1)
  let hasHoodFilter := !hoodInputs.isEmpty
  let restrictHoods := hasHoodFilter && !selected.isEmpty
  let hideWhenNone := hasHoodFilter && selected.isEmpty
  if restrictHoods then selected.contains (normHood rowArea)
  else if hideWhenNone then false
  else true

/-- One metric's active thresholds as computed at wiring.js 1165-1177:
`none` models the JS `null` (threshold inactive). -/
structure Threshold where
  tmin : Option ℚ
  tmax : Option ℚ
deriving DecidableEq

/-- The per-metric check inside the row loop (wiring.js 1203-1216): a missing
or unparseable attribute value (modelled `none`, the JS `NaN`) passes via
`continue`; otherwise the value must not fall below an active `min` nor above
an active `max`. -/
def metricPasses (t : Threshold) (value : Option ℚ) : Bool :=
  match value with
  | none => true
  | some v =>
    (match t.tmin with | none => true | some lo => decide (¬ v < lo)) &&
    (match t.tmax with | none => true | some hi => decide (¬ hi < v))

/-- The conjunction over configured metrics (wiring.js 1203-1216); values are
aligned positionally with the thresholds. -/
def metricsRowPass (ts : List Threshold) (vals : List (Option ℚ)) : Bool :=
  (List.zip ts vals).all (fun p => metricPasses p.1 p.2)

/-- Source wiring.js 1180-1184: the year criterion is the slider's parsed
value when the year toggle is enabled, and a failed parse (`NaN`, modelled
`none`) is demoted to `null` (no constraint). -/
def resolveMinYear (yearEnabled : Bool) (parsed : Option Int) : Option Int :=
  if yearEnabled then parsed else none

/-- The filter-UI state read at the top of `applyFilters`. -/
structure FilterCfg where
  hoodInputs : List (String × Bool)
  thresholds : List Threshold
  requireMember : Bool
  yearEnabled : Bool
  minYearParsed : Option Int
deriving DecidableEq

/-- The `opts` object built at wiring.js 1178-1184. -/
def FilterCfg.opts (cfg : FilterCfg) : FilterOpts :=
  { requireMember := cfg.requireMember,
    minYear := resolveMinYear cfg.yearEnabled cfg.minYearParsed }

/-- One row of the buildings table: the attributes the filter pass reads and
the bits it writes.  `metricVals` holds the parsed `data-<attr>` values
aligned with the configured thresholds (`none` for missing/unparseable). -/
structure Row where
  bid : String
  area : String
  owner : String
  metricVals : List (Option ℚ)
  checked : Bool
  hidden : Bool
deriving DecidableEq

/-- One row of the blocks table. -/
structure BlockRow where
  blockId : String
  checked : Bool
  hidden : Bool
deriving DecidableEq

/-- One row of the landlords table. -/
structure OwnerRow where
  owner : String
  checked : Bool
  hidden : Bool
deriving DecidableEq

/-- The per-row verdict of `applyFilters` (wiring.js 1195-1221): the
neighbourhood sub-rule and the metric sub-rule (the search term is the
constant empty string in the shipped page, wiring.js 568 and 1158, so the
search clause never restricts). -/
def rowMatches (cfg : FilterCfg) (row : Row) : Bool :=
  hoodRule cfg.hoodInputs row.area && metricsRowPass cfg.thresholds row.metricVals

/-- In-place mutation of one object held in an id-keyed index
(`buildingIndex[k]` / `blocksIndex[k]`): every entry carrying the key is
updated (JS object keys are unique, so this is a single object); a missing
key is a no-op, mirroring the `if (!marker) return` guards. -/
def updEntry {α : Type} : List (String × α) → String → (α → α) → List (String × α)
  | [], _, _ => []
  | p :: rest, k, f => (if p.1 = k then (p.1, f p.2) else p) :: updEntry rest k f

/-- Update the first blocks-table row with the given id, mirroring
`document.querySelector` returning the first match (wiring.js 1246). -/
def updFirstBlockRow : List BlockRow → String → (BlockRow → BlockRow) → List BlockRow
  | [], _, _ => []
  | r :: rs, id, f => if r.blockId = id then f r :: rs else r :: updFirstBlockRow rs id f

/-- Source `setBlockSelectionMarkers(blockId, selected)` (wiring.js 228-235)
applied to the id list `blockBuildingIndex[blockId]`. -/
def setBlockSelectionMarkers (ms : List (String × Marker)) (ids : List String)
    (selected : Bool) : List (String × Marker) :=
  ids.foldl (fun acc bid => updEntry acc bid
    (fun m => adjustMarkerSelection m (if selected then 1 else -1))) ms

/-- Source `setOwnerSelection` as reached from `applyFilters` (wiring.js
1260-1269), resolving the owned markers through `buildingIndex` ids. -/
def setOwnerSelectionIds (ms : List (String × Marker)) (ids : List String)
    (selected : Bool) : List (String × Marker) :=
  ids.foldl (fun acc mid => updEntry acc mid
    (fun m => adjustMarkerSelection m (if selected then 1 else -1))) ms

/-- Accumulator of the buildings-row loop of `applyFilters`. -/
structure P1Acc where
  markers : List (String × Marker)
  rows : List Row
  visible : List String
deriving DecidableEq

/-- One iteration of the buildings-row loop (wiring.js 1186-1241), in source
order: membership verdict recorded on the marker, row verdict, hidden class
toggled, a checked row that fails is unchecked and its full refcount
contribution removed, then `setMarkerVisibility` and
`updateMarkerColorAppearance`, and a passing bid joins `visibleBids`. -/
def phase1Step (cfg : FilterCfg) (membership : List (String × List MemberRecord))
    (acc : P1Acc) (row : Row) : P1Acc :=
  let records := (membership.lookup row.bid).getD []
  let mm := matchesFilters records cfg.opts
  let ms1 := updEntry acc.markers row.bid (fun m => { m with passesMembership := mm })
  let verdict := rowMatches cfg row
  let current := ((ms1.lookup row.bid).map Marker.selectionRefs).getD 0
  let ms2 :=
    if verdict = false ∧ row.checked = true ∧ 0 < current then
      updEntry ms1 row.bid (fun m => adjustMarkerSelection m (-current))
    else ms1
  let ms3 := updEntry ms2 row.bid (fun m => setMarkerVisibility m verdict)
  let ms4 := updEntry ms3 row.bid updateMarkerColorAppearance
  let row' := { row with hidden := !verdict,
                         checked := if verdict then row.checked else false }
  { markers := ms4, rows := acc.rows ++ [row'],
    visible := if verdict then acc.visible ++ [row.bid] else acc.visible }

/-- Accumulator of the block loop of `applyFilters`. -/
structure P2Acc where
  markers : List (String × Marker)
  blocks : List (String × Block)
  brows : List BlockRow
deriving DecidableEq

/-- One iteration of the block loop (wiring.js 1243-1258): visibility is the
OR over the linked buildings' verdicts; a checked row of a block that becomes
hidden is unchecked, the layer refcount is zeroed and the member markers are
deselected; finally `setBlockFiltered` is applied. -/
def phase2Step (visible : List String) (acc : P2Acc) (entry : String × List String) :
    P2Acc :=
  let hasVisible := entry.2.any (fun id => visible.contains id)
  let rowOpt := acc.brows.find? (fun r => r.blockId == entry.1)
  let brows1 := updFirstBlockRow acc.brows entry.1 (fun r => { r with hidden := !hasVisible })
  let st : P2Acc :=
    match rowOpt with
    | some r =>
      if hasVisible = false ∧ r.checked = true then
        { markers := setBlockSelectionMarkers acc.markers entry.2 false,
          blocks := updEntry acc.blocks entry.1 (fun b => { b with selectionRefs := 0 }),
          brows := updFirstBlockRow brows1 entry.1 (fun r => { r with checked := false }) }
      else { markers := acc.markers, blocks := acc.blocks, brows := brows1 }
    | none => { markers := acc.markers, blocks := acc.blocks, brows := brows1 }
  { st with blocks := updEntry st.blocks entry.1 (fun b => setBlockFiltered b (!hasVisible)) }

/-- Accumulator of the landlord loop of `applyFilters`. -/
structure P3Acc where
  markers : List (String × Marker)
  orows : List OwnerRow
deriving DecidableEq

/-- One iteration of the landlord loop (wiring.js 1260-1269): an owner row is
visible iff some non-hidden buildings row carries its owner key; a checked row
that becomes hidden is unchecked and the owner's markers are deselected. -/
def phase3Step (ownerIdx : List (String × List String)) (rows : List Row)
    (acc : P3Acc) (orow : OwnerRow) : P3Acc :=
  let hasVisible := rows.any (fun r => r.owner == orow.owner && !r.hidden)
  if hasVisible = false ∧ orow.checked = true then
    { markers := setOwnerSelectionIds acc.markers ((ownerIdx.lookup orow.owner).getD []) false,
      orows := acc.orows ++ [{ orow with hidden := true, checked := false }] }
  else
    { markers := acc.markers, orows := acc.orows ++ [{ orow with hidden := !hasVisible }] }

/-- The whole mutable state `applyFilters` touches. -/
structure Sys where
  markers : List (String × Marker)
  blocks : List (String × Block)
  rows : List Row
  blockRows : List BlockRow
  ownerRows : List OwnerRow
  membership : List (String × List MemberRecord)
  bbIndex : List (String × List String)
  ownerIndex : List (String × List String)
deriving DecidableEq

/-- The buildings-row loop of `applyFilters`. -/
def phase1 (cfg : FilterCfg) (s : Sys) : P1Acc :=
  s.rows.foldl (phase1Step cfg s.membership) { markers := s.markers, rows := [], visible := [] }

/-- Source `applyFilters` (wiring.js 1156-1274) as a state transformer: the
buildings-row loop, then the block loop over `blockBuildingIndex`, then the
landlord loop (the summary/status updates at the end are display-only). -/
def applyFilters (cfg : FilterCfg) (s : Sys) : Sys :=
  let p1 := phase1 cfg s
  let p2 := s.bbIndex.foldl (phase2Step p1.visible)
    { markers := p1.markers, blocks := s.blocks, brows := s.blockRows }
  let p3 := s.ownerRows.foldl (phase3Step s.ownerIndex p1.rows)
    { markers := p2.markers, orows := [] }
  { s with markers := p3.markers, blocks := p2.blocks, rows := p1.rows,
           blockRows := p2.brows, ownerRows := p3.orows }

/-- The concrete style payloads `resetBlockStyle` can apply (wiring.js
65-83). -/
structure LayerStyle where
  weight : ℚ
  color : Option String
  fillOpacity : ℚ
  fillColor : String
deriving DecidableEq

/-- The flat neutral block style of wiring.js line 71. -/
def neutralBlockStyle : LayerStyle :=
  { weight := 1, color := some "#b8b8b8", fillOpacity := 1/5, fillColor := "#f0f0f0" }

/-- The 6-step sequential palette choice of wiring.js 74-78, taking the
already-clamped fill fraction. -/
def choroplethFill (r : ℚ) : String :=
  if r ≤ 1/10 then "#f7fcf5"
  else if r ≤ 1/4 then "#e5f5e0"
  else if r ≤ 1/2 then "#c7e9c0"
  else if r ≤ 3/4 then "#74c476"
  else if r < 1 then "#31a354"
  else "#006d2c"

/-- Source `resetBlockStyle` (wiring.js 65-83), the style computation: the
flat neutral style when choropleth colouring is disabled or the registry
maximum is not positive, otherwise the palette colour chosen by the fraction
`units / blockColorMax` clamped into [0, 1]. -/
def resetBlockStyleCore (blockColorScalingEnabled : Bool) (blockColorMax units : ℚ) :
    LayerStyle :=
  if blockColorScalingEnabled = false ∨ blockColorMax ≤ 0 then neutralBlockStyle
  else
    { weight := 1, color := some "#b8b8b8", fillOpacity := 7/20,
      fillColor := choroplethFill (max 0 (min 1 (units / blockColorMax))) }

open Classical in
/-- Source `toSlider` for a logarithmic metric (wiring.js 1077-1084): values
at or below zero map to position 0, otherwise the value is clamped into
[min_positive, max] and mapped affinely in log space onto [0, 100].  `pmin` is
`summary.min_positive`, `M` is `summary.max`; IEEE doubles are idealized as
reals. -/
noncomputable def toSlider (pmin M value : ℝ) : ℝ :=
  if value ≤ 0 then 0
  else ((Real.log (max pmin (min value M)) - Real.log pmin) /
        (Real.log (max M pmin) - Real.log pmin)) * 100

open Classical in
/-- Source `fromSlider` for a logarithmic metric (wiring.js 1085-1093): the
position is clamped into [0, 100]; at exactly position 0 a metric whose global
minimum is not positive snaps to that minimum; otherwise the affine-in-log
inverse `exp(logMin + r * (logMax - logMin))`.  `smin` is `summary.min`. -/
noncomputable def fromSlider (smin pmin M pos : ℝ) : ℝ :=
  if min 1 (max 0 (pos / 100)) = 0 ∧ smin ≤ 0 then smin
  else Real.exp (Real.log pmin +
    min 1 (max 0 (pos / 100)) * (Real.log (max M pmin) - Real.log pmin))


/-- Inductive invariant of the single-marker machine: a filtered marker shows
the invisible style, an unfiltered marker with positive refcount shows the
highlight, and the refcount is never negative. -/
def markerInv (m : Marker) : Prop :=
  (m.isFiltered = true → m.style = MStyle.hidden) ∧
  (m.isFiltered = false → 0 < m.selectionRefs → m.style = MStyle.highlight) ∧
  0 ≤ m.selectionRefs

/-- The highlight-iff-selected relation stated by the spec for markers. -/
def highlightIff (m : Marker) : Prop :=
  m.style = MStyle.highlight ↔ (m.isFiltered = false ∧ 0 < m.selectionRefs)

/-- Inductive invariant of the single-block machine: a filtered block shows
the pale filtered style and the refcount is never negative.  Unlike markers,
"positive refcount implies highlight" is NOT invariant for blocks:
`setBlockFiltered(_, false)` and `applyBlockColorScaling` reset the style
without consulting the refcount. -/
def blockInv (b : Block) : Prop :=
  (b.isFiltered = true → b.style = BStyle.filteredS) ∧ 0 ≤ b.selectionRefs

/-- The highlight-iff-selected relation stated by the spec for blocks. -/
def highlightIffB (b : Block) : Prop :=
  b.style = BStyle.highlight ↔ (b.isFiltered = false ∧ 0 < b.selectionRefs)

/-- A filter-UI state with a single checked neighbourhood option "x" and no
metric thresholds, used for concrete evaluations. -/
def cfgHoodX : FilterCfg :=
  { hoodInputs := [("x", true)], thresholds := [], requireMember := false,
    yearEnabled := false, minYearParsed := none }

/-- A buildings-table row for building "m1" in neighbourhood "x". -/
def rowM1 : Row :=
  { bid := "m1", area := "x", owner := "o1", metricVals := [], checked := false,
    hidden := false }

/-- A buildings-table row for building "m1" in neighbourhood "y". -/
def rowY : Row :=
  { bid := "m1", area := "y", owner := "o1", metricVals := [], checked := false,
    hidden := false }

/-- A registry with building "m1" linked to block "A" and a second block "Z"
with no linked buildings. -/
def sysZ : Sys :=
  { markers := [("m1", initMarker)],
    blocks := [("A", initBlock), ("Z", initBlock)],
    rows := [rowM1], blockRows := [], ownerRows := [], membership := [],
    bbIndex := [("A", ["m1"])], ownerIndex := [] }

/-- A marker in the state produced by a block-cascade selection: one
reference, highlighted, not filtered. -/
def markerSel : Marker :=
  { selectionRefs := 1, isFiltered := false, style := MStyle.highlight,
    passesMembership := true }

/-- A registry where block "B" links buildings "m1" (with a table row) and
"m2" (with no table row), the blocks-table row of "B" is check-selected, and
"m2" carries the refcount contributed by that selection. -/
def sysCascade : Sys :=
  { markers := [("m1", initMarker), ("m2", markerSel)],
    blocks := [("B", { selectionRefs := 1, isFiltered := false,
                       style := BStyle.highlight })],
    rows := [rowY],
    blockRows := [{ blockId := "B", checked := true, hidden := false }],
    ownerRows := [], membership := [],
    bbIndex := [("B", ["m1", "m2"])], ownerIndex := [] }


theorem adjust_eq_of_unfiltered (m : Marker) (d : Int) (hf : m.isFiltered = false) :
    adjustMarkerSelection m d =
      { m with selectionRefs := if m.selectionRefs + d < 0 then 0 else m.selectionRefs + d,
               style := if 0 < (if m.selectionRefs + d < 0 then 0 else m.selectionRefs + d)
                        then MStyle.highlight else MStyle.base } := by
  rcases m with ⟨refs, filt, sty, pm⟩
  simp only [adjustMarkerSelection, highlightMarker] at *
  subst hf
  split_ifs <;> simp_all

theorem adjust_eq_of_filtered (m : Marker) (d : Int) (hf : m.isFiltered = true) :
    adjustMarkerSelection m d =
      { m with selectionRefs := if m.selectionRefs + d < 0 then 0 else m.selectionRefs + d } := by
  rcases m with ⟨refs, filt, sty, pm⟩
  simp only [adjustMarkerSelection, highlightMarker] at *
  subst hf
  split_ifs <;> simp_all

theorem setVis_false_eq (m : Marker) :
    setMarkerVisibility m false =
      { m with isFiltered := true, selectionRefs := 0, style := MStyle.hidden } := by
  simp [setMarkerVisibility]

theorem setVis_true_eq (m : Marker) :
    setMarkerVisibility m true =
      { m with isFiltered := false,
               style := if 0 < m.selectionRefs then MStyle.highlight else MStyle.base } := by
  rcases m with ⟨refs, filt, sty, pm⟩
  simp only [setMarkerVisibility, highlightMarker]
  split_ifs <;> simp_all

theorem hover_eq_of_filtered (m : Marker) (t : Bool) (hf : m.isFiltered = true) :
    buildingHover m t = m := by
  simp [buildingHover, hf]

theorem hover_on_eq (m : Marker) (hf : m.isFiltered = false) :
    buildingHover m true = { m with style := MStyle.highlight } := by
  simp [buildingHover, highlightMarker, hf]

theorem hover_off_eq (m : Marker) (hf : m.isFiltered = false) :
    buildingHover m false =
      if m.selectionRefs = 0 then { m with style := MStyle.base } else m := by
  simp only [buildingHover, highlightMarker, hf]
  split_ifs <;> simp_all

theorem refresh_eq_of_filtered (m : Marker) (hf : m.isFiltered = true) :
    updateMarkerColorAppearance m = m := by
  simp [updateMarkerColorAppearance, hf]

theorem refresh_eq_of_unfiltered (m : Marker) (hf : m.isFiltered = false) :
    updateMarkerColorAppearance m =
      { m with style := if 0 < m.selectionRefs then MStyle.highlight else MStyle.base } := by
  simp only [updateMarkerColorAppearance, highlightMarker, hf]
  split_ifs <;> simp_all

theorem markerInv_init : markerInv initMarker := by
  refine ⟨?_, ?_, ?_⟩ <;> simp [initMarker]

theorem markerInv_adjust (m : Marker) (d : Int) (h : markerInv m) :
    markerInv (adjustMarkerSelection m d) := by
  obtain ⟨h1, h2, h3⟩ := h
  cases hf : m.isFiltered with
  | false =>
    rw [adjust_eq_of_unfiltered m d hf]
    refine ⟨by simp [hf], ?_, ?_⟩ <;> simp <;> omega
  | true =>
    rw [adjust_eq_of_filtered m d hf]
    exact ⟨fun _ => h1 hf, by simp [hf], by simp; omega⟩

theorem markerInv_setVis (m : Marker) (v : Bool) (h : markerInv m) :
    markerInv (setMarkerVisibility m v) := by
  obtain ⟨h1, h2, h3⟩ := h
  cases v with
  | false => rw [setVis_false_eq]; exact ⟨fun _ => rfl, by simp, le_refl 0⟩
  | true =>
    rw [setVis_true_eq]
    refine ⟨by simp, ?_, h3⟩
    intro _ hpos
    simp [hpos]

theorem markerInv_hover (m : Marker) (t : Bool) (h : markerInv m) :
    markerInv (buildingHover m t) := by
  obtain ⟨h1, h2, h3⟩ := h
  cases hf : m.isFiltered with
  | true => rw [hover_eq_of_filtered m t hf]; exact ⟨h1, h2, h3⟩
  | false =>
    cases t with
    | true =>
      rw [hover_on_eq m hf]
      exact ⟨by simp [hf], fun _ _ => rfl, h3⟩
    | false =>
      rw [hover_off_eq m hf]
      by_cases hz : m.selectionRefs = 0
      · simp only [hz, if_pos rfl]
        exact ⟨by simp [hf], by simp [hz], by simp [hz]⟩
      · simp only [if_neg hz]
        exact ⟨h1, h2, h3⟩

theorem markerInv_refresh (m : Marker) (h : markerInv m) :
    markerInv (updateMarkerColorAppearance m) := by
  obtain ⟨h1, h2, h3⟩ := h
  cases hf : m.isFiltered with
  | true => rw [refresh_eq_of_filtered m hf]; exact ⟨h1, h2, h3⟩
  | false =>
    rw [refresh_eq_of_unfiltered m hf]
    refine ⟨by simp [hf], ?_, h3⟩
    intro _ hpos
    simp [hpos]

theorem markerInv_step (m : Marker) (op : MOp) (h : markerInv m) :
    markerInv (stepM m op) := by
  cases op with
  | adjust d => exact markerInv_adjust m d h
  | setVisible v => exact markerInv_setVis m v h
  | hover t => exact markerInv_hover m t h
  | refresh => exact markerInv_refresh m h

theorem markerInv_foldl (ops : List MOp) (m : Marker) (h : markerInv m) :
    markerInv (ops.foldl stepM m) := by
  induction ops generalizing m with
  | nil => exact h
  | cons op rest ih => exact ih _ (markerInv_step m op h)

theorem markerInv_runM (ops : List MOp) : markerInv (runM ops) :=
  markerInv_foldl ops initMarker markerInv_init

theorem highlightIff_of_style (m : Marker) (hf : m.isFiltered = false)
    (hs : m.style = if 0 < m.selectionRefs then MStyle.highlight else MStyle.base) :
    highlightIff m := by
  unfold highlightIff
  rw [hs, hf]
  split_ifs with hc <;> simp [hc]

theorem highlightIff_of_hidden (m : Marker) (hf : m.isFiltered = true)
    (hs : m.style = MStyle.hidden) : highlightIff m := by
  unfold highlightIff
  rw [hs, hf]
  simp

theorem highlightIff_adjust (m : Marker) (d : Int) (h : markerInv m) :
    highlightIff (adjustMarkerSelection m d) := by
  obtain ⟨h1, h2, h3⟩ := h
  cases hf : m.isFiltered with
  | false =>
    rw [adjust_eq_of_unfiltered m d hf]
    exact highlightIff_of_style _ hf rfl
  | true =>
    rw [adjust_eq_of_filtered m d hf]
    exact highlightIff_of_hidden _ hf (h1 hf)

theorem highlightIff_setVis (m : Marker) (v : Bool) (h : markerInv m) :
    highlightIff (setMarkerVisibility m v) := by
  obtain ⟨h1, h2, h3⟩ := h
  cases v with
  | false => exact highlightIff_of_hidden _ (by rw [setVis_false_eq]) (by rw [setVis_false_eq])
  | true =>
    rw [setVis_true_eq]
    exact highlightIff_of_style _ rfl rfl

theorem adjustB_eq_of_unfiltered (b : Block) (d : Int) (hf : b.isFiltered = false) :
    adjustBlockSelection b d =
      { b with selectionRefs := if b.selectionRefs + d < 0 then 0 else b.selectionRefs + d,
               style := if 0 < (if b.selectionRefs + d < 0 then 0 else b.selectionRefs + d)
                        then BStyle.highlight else BStyle.base } := by
  rcases b with ⟨refs, filt, sty⟩
  simp only [adjustBlockSelection, highlightBlock, resetBlockStyle] at *
  subst hf
  split_ifs <;> simp_all

theorem adjustB_eq_of_filtered (b : Block) (d : Int) (hf : b.isFiltered = true) :
    adjustBlockSelection b d =
      { b with selectionRefs := if b.selectionRefs + d < 0 then 0 else b.selectionRefs + d } := by
  rcases b with ⟨refs, filt, sty⟩
  simp only [adjustBlockSelection, highlightBlock] at *
  subst hf
  split_ifs <;> simp_all

theorem setBlockFiltered_true_eq (b : Block) :
    setBlockFiltered b true =
      { b with isFiltered := true, selectionRefs := 0, style := BStyle.filteredS } := by
  simp [setBlockFiltered]

theorem setBlockFiltered_false_eq (b : Block) :
    setBlockFiltered b false = { b with isFiltered := false, style := BStyle.base } := by
  simp [setBlockFiltered, resetBlockStyle]

theorem hoverB_eq_of_filtered (b : Block) (t : Bool) (hf : b.isFiltered = true) :
    blockHover b t = b := by
  simp [blockHover, hf]

theorem hoverB_on_eq (b : Block) (hf : b.isFiltered = false) :
    blockHover b true = { b with style := BStyle.highlight } := by
  simp [blockHover, highlightBlock, hf]

theorem hoverB_off_eq (b : Block) (hf : b.isFiltered = false) :
    blockHover b false =
      if b.selectionRefs = 0 then { b with style := BStyle.base } else b := by
  simp only [blockHover, highlightBlock, resetBlockStyle, hf]
  split_ifs <;> simp_all

theorem blockInv_init : blockInv initBlock := by
  refine ⟨?_, ?_⟩ <;> simp [initBlock]

theorem blockInv_adjust (b : Block) (d : Int) (h : blockInv b) :
    blockInv (adjustBlockSelection b d) := by
  obtain ⟨h1, h3⟩ := h
  cases hf : b.isFiltered with
  | false =>
    rw [adjustB_eq_of_unfiltered b d hf]
    refine ⟨by simp [hf], by simp; omega⟩
  | true =>
    rw [adjustB_eq_of_filtered b d hf]
    exact ⟨fun _ => h1 hf, by simp; omega⟩

theorem blockInv_setFiltered (b : Block) (f : Bool) (h : blockInv b) :
    blockInv (setBlockFiltered b f) := by
  obtain ⟨h1, h3⟩ := h
  cases f with
  | true => rw [setBlockFiltered_true_eq]; exact ⟨fun _ => rfl, le_refl 0⟩
  | false =>
    rw [setBlockFiltered_false_eq]
    exact ⟨by simp, h3⟩

theorem blockInv_hover (b : Block) (t : Bool) (h : blockInv b) :
    blockInv (blockHover b t) := by
  obtain ⟨h1, h3⟩ := h
  cases hf : b.isFiltered with
  | true => rw [hoverB_eq_of_filtered b t hf]; exact ⟨h1, h3⟩
  | false =>
    cases t with
    | true =>
      rw [hoverB_on_eq b hf]
      exact ⟨by simp [hf], h3⟩
    | false =>
      rw [hoverB_off_eq b hf]
      by_cases hz : b.selectionRefs = 0
      · simp only [hz, if_pos rfl]
        exact ⟨by simp [hf], by simp [hz]⟩
      · simp only [if_neg hz]
        exact ⟨h1, h3⟩

theorem blockInv_step (b : Block) (op : BOp) (h : blockInv b) :
    blockInv (stepB b op) := by
  cases op with
  | adjust d => exact blockInv_adjust b d h
  | setFiltered f => exact blockInv_setFiltered b f h
  | hover t => exact blockInv_hover b t h
  | reset =>
    obtain ⟨h1, h3⟩ := h
    simp only [stepB]
    split_ifs with hf
    · exact ⟨h1, h3⟩
    · exact ⟨by simp_all [resetBlockStyle], h3⟩

theorem blockInv_foldl (ops : List BOp) (b : Block) (h : blockInv b) :
    blockInv (ops.foldl stepB b) := by
  induction ops generalizing b with
  | nil => exact h
  | cons op rest ih => exact ih _ (blockInv_step b op h)

theorem blockInv_runB (ops : List BOp) : blockInv (runB ops) :=
  blockInv_foldl ops initBlock blockInv_init

theorem highlightIffB_of_style (b : Block) (hf : b.isFiltered = false)
    (hs : b.style = if 0 < b.selectionRefs then BStyle.highlight else BStyle.base) :
    highlightIffB b := by
  unfold highlightIffB
  rw [hs, hf]
  split_ifs with hc <;> simp [hc]

theorem highlightIffB_of_filteredS (b : Block) (hf : b.isFiltered = true)
    (hs : b.style = BStyle.filteredS) : highlightIffB b := by
  unfold highlightIffB
  rw [hs, hf]
  simp

theorem highlightIffB_adjust (b : Block) (d : Int) (h : blockInv b) :
    highlightIffB (adjustBlockSelection b d) := by
  obtain ⟨h1, h3⟩ := h
  cases hf : b.isFiltered with
  | false =>
    rw [adjustB_eq_of_unfiltered b d hf]
    exact highlightIffB_of_style _ hf rfl
  | true =>
    rw [adjustB_eq_of_filtered b d hf]
    exact highlightIffB_of_filteredS _ hf (h1 hf)

theorem highlightIffB_setFiltered_true (b : Block) :
    highlightIffB (setBlockFiltered b true) :=
  highlightIffB_of_filteredS _ (by rw [setBlockFiltered_true_eq]) (by rw [setBlockFiltered_true_eq])

theorem adjust_refs (m : Marker) (d : Int) :
    (adjustMarkerSelection m d).selectionRefs =
      if m.selectionRefs + d < 0 then 0 else m.selectionRefs + d := by
  cases hf : m.isFiltered with
  | false => rw [adjust_eq_of_unfiltered m d hf]
  | true => rw [adjust_eq_of_filtered m d hf]

theorem adjust_isFiltered (m : Marker) (d : Int) :
    (adjustMarkerSelection m d).isFiltered = m.isFiltered := by
  cases hf : m.isFiltered with
  | false => rw [adjust_eq_of_unfiltered m d hf]; exact hf
  | true => rw [adjust_eq_of_filtered m d hf]; exact hf

theorem adjustB_refs (b : Block) (d : Int) :
    (adjustBlockSelection b d).selectionRefs =
      if b.selectionRefs + d < 0 then 0 else b.selectionRefs + d := by
  cases hf : b.isFiltered with
  | false => rw [adjustB_eq_of_unfiltered b d hf]
  | true => rw [adjustB_eq_of_filtered b d hf]

/-- Claim C1, counterexample: hovering an unselected, unfiltered marker
(`buildingHover(bid, true)`) applies the highlight overlay while leaving
`selectionRefCount` at zero, so the claimed iff fails in that reachable
state; hover does not go through the counter. -/
theorem c1_highlight_counterexample :
    ¬ (((runM [MOp.hover true]).style = MStyle.highlight) ↔
        ((runM [MOp.hover true]).isFiltered = false ∧
          0 < (runM [MOp.hover true]).selectionRefs)) := by
  decide

/-- Claim C1 (amended): at every reachable state, a highlighted entity is
never filtered; for building markers an unfiltered entity with positive
refcount is always highlighted, and after every counter operation
(`adjustMarkerSelection` or `setMarkerVisibility`) the highlight holds iff
the entity is unfiltered with positive refcount.  For block layers the same
iff is restored by every `adjustBlockSelection` and by filtering; hover-on
instead applies the highlight without touching the counter. -/
theorem c1_highlight_amended (mops : List MOp) (bops : List BOp) :
    ((runM mops).style = MStyle.highlight → (runM mops).isFiltered = false) ∧
    ((runM mops).isFiltered = false → 0 < (runM mops).selectionRefs →
      (runM mops).style = MStyle.highlight) ∧
    (∀ d, highlightIff (adjustMarkerSelection (runM mops) d)) ∧
    (∀ v, highlightIff (setMarkerVisibility (runM mops) v)) ∧
    ((runB bops).style = BStyle.highlight → (runB bops).isFiltered = false) ∧
    (∀ d, highlightIffB (adjustBlockSelection (runB bops) d)) ∧
    highlightIffB (setBlockFiltered (runB bops) true) := by
  obtain ⟨hm1, hm2, hm3⟩ := markerInv_runM mops
  obtain ⟨hb1, hb3⟩ := blockInv_runB bops
  refine ⟨?_, hm2, ?_, ?_, ?_, ?_, ?_⟩
  · intro hs
    cases hfv : (runM mops).isFiltered with
    | false => rfl
    | true => rw [hm1 hfv] at hs; exact absurd hs (by simp)
  · intro d; exact highlightIff_adjust _ d ⟨hm1, hm2, hm3⟩
  · intro v; exact highlightIff_setVis _ v ⟨hm1, hm2, hm3⟩
  · intro hs
    cases hfv : (runB bops).isFiltered with
    | false => rfl
    | true => rw [hb1 hfv] at hs; exact absurd hs (by simp)
  · intro d; exact highlightIffB_adjust _ d ⟨hb1, hb3⟩
  · exact highlightIffB_setFiltered_true _

theorem c1_highlight_amended_witness :
    (runM [MOp.adjust 1]).style = MStyle.highlight :=
  (c1_highlight_amended [MOp.adjust 1] []).2.1 (by decide) (by decide)

/-- Claim C2, counterexample: a filtered marker reached through
`setMarkerVisibility(_, false)` that is then swept by an owner-cascade
selection (`setOwnerSelection(_, true)`, which adjusts every owned marker,
filtered or not) records `selectionRefCount = 1` while still filtered, so the
claimed "filtered forces refcount zero at every reachable state" fails. -/
theorem c2_filtered_counterexample :
    ((setOwnerSelection [runM [MOp.setVisible false]] true).getD 0 initMarker).isFiltered
        = true ∧
    ((setOwnerSelection [runM [MOp.setVisible false]] true).getD 0 initMarker).selectionRefs
        = 1 := by
  decide

/-- Claim C2 (amended): at every reachable state a filtered entity shows the
filtered (hidden / pale) style and never the highlight; filtering an entity
(`setMarkerVisibility(_, false)` / `setBlockFiltered(_, true)`) zeroes its
refcount at that moment regardless of the prior count; but a later adjust on
a filtered entity records the count (visually suppressed), so the count can
be positive while filtered. -/
theorem c2_filtered_amended (mops : List MOp) (bops : List BOp) :
    ((runM mops).isFiltered = true → (runM mops).style = MStyle.hidden) ∧
    (setMarkerVisibility (runM mops) false).selectionRefs = 0 ∧
    (setMarkerVisibility (runM mops) false).style = MStyle.hidden ∧
    (setMarkerVisibility (runM mops) false).isFiltered = true ∧
    ((runB bops).isFiltered = true → (runB bops).style = BStyle.filteredS) ∧
    (setBlockFiltered (runB bops) true).selectionRefs = 0 ∧
    (setBlockFiltered (runB bops) true).style = BStyle.filteredS := by
  obtain ⟨hm1, hm2, hm3⟩ := markerInv_runM mops
  obtain ⟨hb1, hb3⟩ := blockInv_runB bops
  refine ⟨hm1, ?_, ?_, ?_, hb1, ?_, ?_⟩
  · rw [setVis_false_eq]
  · rw [setVis_false_eq]
  · rw [setVis_false_eq]
  · rw [setBlockFiltered_true_eq]
  · rw [setBlockFiltered_true_eq]

theorem c2_filtered_amended_witness :
    (runM [MOp.setVisible false]).style = MStyle.hidden :=
  (c2_filtered_amended [MOp.setVisible false] []).1 (by decide)

/-- Claim C4 (confirmed): after any finite sequence of operations (a fortiori
any sequence of adjust calls) the refcount of a marker or block is
non-negative, and a decrement that would go below zero clamps to exactly
zero. -/
theorem c4_refcount_clamped (mops : List MOp) (bops : List BOp) (d : Int) :
    0 ≤ (runM mops).selectionRefs ∧ 0 ≤ (runB bops).selectionRefs ∧
    ((runM mops).selectionRefs + d < 0 →
      (adjustMarkerSelection (runM mops) d).selectionRefs = 0) ∧
    ((runB bops).selectionRefs + d < 0 →
      (adjustBlockSelection (runB bops) d).selectionRefs = 0) ∧
    0 ≤ (adjustMarkerSelection (runM mops) d).selectionRefs ∧
    0 ≤ (adjustBlockSelection (runB bops) d).selectionRefs := by
  obtain ⟨hm1, hm2, hm3⟩ := markerInv_runM mops
  obtain ⟨hb1, hb3⟩ := blockInv_runB bops
  rw [adjust_refs, adjustB_refs]
  refine ⟨hm3, hb3, ?_, ?_, ?_, ?_⟩ <;> intros <;> split_ifs <;> omega

theorem c4_refcount_clamped_witness :
    (adjustMarkerSelection (runM []) (-1)).selectionRefs = 0 :=
  (c4_refcount_clamped [] [] (-1)).2.2.1 (by decide)

/-- Claim C5 (confirmed): `matchesFilters` passes when neither membership
criterion is set, and otherwise passes exactly when the record list, first
narrowed by the member tag (when `requireMembership` is set) and then by the
year threshold (when `minYear` is set, records with a null year failing), is
non-empty.  The right-hand side is the spec-worded verdict. -/
theorem c5_membership_rule (records : List MemberRecord) (opts : FilterOpts) :
    matchesFilters records opts = membershipSpecVerdict records opts := by
  unfold matchesFilters membershipSpecVerdict narrowRecords
  by_cases h0 : opts.requireMember = false ∧ opts.minYear = none
  · simp [h0]
  · simp only [if_neg h0]
    cases records with
    | nil => cases hy : opts.minYear <;> cases hr : opts.requireMember <;> simp
    | cons r rs => simp

/-- Claim C7 (confirmed): with no neighbourhood checkboxes the sub-rule always
passes; with checkboxes but none checked every building fails; with at least
one checked a building passes iff its trimmed, lower-cased `data-area` value
is among the trimmed, lower-cased selected values. -/
theorem c7_neighbourhood_rule (inputs : List (String × Bool)) (area : String) :
    (inputs = [] → hoodRule inputs area = true) ∧
    (inputs ≠ [] → inputs.filter (fun p => p.2) = [] → hoodRule inputs area = false) ∧
    (inputs.filter (fun p => p.2) ≠ [] →
      hoodRule inputs area =
        ((inputs.filter (fun p => p.2)).map (fun p => normHood p.1)).contains
          (normHood area)) := by
  refine ⟨?_, ?_, ?_⟩
  · intro h; subst h; rfl
  · intro hne hsel
    unfold hoodRule
    simp [hsel, hne]
  · intro hsel
    have hne : inputs ≠ [] := by
      intro h; subst h; simp at hsel
    unfold hoodRule
    simp [hsel, hne]

theorem c7_neighbourhood_rule_witness :
    hoodRule [("Mitte", true), ("Nord", false)] " MITTE " =
      (([("Mitte", true), ("Nord", false)].filter (fun p => p.2)).map
        (fun p => normHood p.1)).contains (normHood " MITTE ") :=
  (c7_neighbourhood_rule [("Mitte", true), ("Nord", false)] " MITTE ").2.2 (by decide)

/-- Claim C8 (confirmed): a missing or unparseable metric value (the JS `NaN`)
passes that metric's check, and a year slider value that fails integer parsing
is demoted to "no constraint", leaving the membership verdict identical to the
one without any year criterion. -/
theorem c8_missing_values_pass (value : Option ℚ) (t : Threshold) (yearEnabled : Bool)
    (records : List MemberRecord) (req : Bool) :
    (value = none → metricPasses t value = true) ∧
    resolveMinYear yearEnabled none = none ∧
    matchesFilters records { requireMember := req, minYear := resolveMinYear yearEnabled none }
      = matchesFilters records { requireMember := req, minYear := none } := by
  have hy : resolveMinYear yearEnabled none = none := by
    unfold resolveMinYear; split_ifs <;> rfl
  refine ⟨?_, hy, ?_⟩
  · intro h; subst h; rfl
  · rw [hy]

theorem c8_missing_values_pass_witness :
    metricPasses { tmin := some 5, tmax := some 10 } none = true :=
  (c8_missing_values_pass none { tmin := some 5, tmax := some 10 } true [] true).1 rfl

/-- Claim C6, counterexample: with choropleth enabled and a positive registry
maximum, a block whose unit fraction is ≤ 0 gets the lightest palette step
(`#f7fcf5`, fill opacity 0.35), not the flat neutral style the claim
prescribes for ratio ≤ 0. -/
theorem c6_choropleth_counterexample :
    ((0 : ℚ) / 100 ≤ 0) ∧
    resetBlockStyleCore true 100 0 ≠ neutralBlockStyle ∧
    (resetBlockStyleCore true 100 0).fillColor = "#f7fcf5" := by
  have hzero : max 0 (min 1 ((0 : ℚ) / 100)) = 0 := by norm_num
  have hcore : resetBlockStyleCore true 100 0 =
      { weight := 1, color := some "#b8b8b8", fillOpacity := 7/20,
        fillColor := choroplethFill (max 0 (min 1 ((0 : ℚ) / 100))) } := by
    unfold resetBlockStyleCore
    rw [if_neg]
    push_neg
    exact ⟨by simp, by norm_num⟩
  have hfill : choroplethFill (max 0 (min 1 ((0 : ℚ) / 100))) = "#f7fcf5" := by
    rw [hzero]
    unfold choroplethFill
    rw [if_pos (by norm_num)]
  refine ⟨by norm_num, ?_, ?_⟩
  · rw [hcore]
    intro hcontra
    have := congrArg LayerStyle.fillOpacity hcontra
    simp [neutralBlockStyle] at this
    norm_num at this
  · rw [hcore, hfill]

/-- Claim C6 (amended): with choropleth enabled and a positive registry
maximum, the fill colour is chosen by the fraction `totalUnits / max` clamped
into [0, 1] using the half-open breakpoints 0.10 / 0.25 / 0.50 / 0.75 / 1.00
(fraction ≤ 0.10, including every fraction ≤ 0 after clamping, gives the
lightest step; fraction ≥ 1, including units above the registry maximum, gives
the darkest step); the flat neutral style appears exactly when choropleth is
disabled or the registry maximum is not positive, not when the fraction
is ≤ 0. -/
theorem c6_choropleth_amended (enabled : Bool) (bmax units : ℚ) :
    (enabled = false ∨ bmax ≤ 0 → resetBlockStyleCore enabled bmax units = neutralBlockStyle) ∧
    (enabled = true → 0 < bmax →
      resetBlockStyleCore enabled bmax units =
        { weight := 1, color := some "#b8b8b8", fillOpacity := 7/20,
          fillColor := choroplethFill (max 0 (min 1 (units / bmax))) } ∧
      (0 ≤ max 0 (min 1 (units / bmax)) ∧ max 0 (min 1 (units / bmax)) ≤ 1) ∧
      (units / bmax ≤ 1/10 →
        (resetBlockStyleCore enabled bmax units).fillColor = "#f7fcf5") ∧
      (1 ≤ units / bmax →
        (resetBlockStyleCore enabled bmax units).fillColor = "#006d2c") ∧
      resetBlockStyleCore enabled bmax units ≠ neutralBlockStyle) := by
  constructor
  · intro h
    unfold resetBlockStyleCore
    rw [if_pos h]
  · intro hen hpos
    have hcond : ¬ (enabled = false ∨ bmax ≤ 0) := by
      push_neg
      exact ⟨by simp [hen], hpos⟩
    have hcore : resetBlockStyleCore enabled bmax units =
        { weight := 1, color := some "#b8b8b8", fillOpacity := 7/20,
          fillColor := choroplethFill (max 0 (min 1 (units / bmax))) } := by
      unfold resetBlockStyleCore
      rw [if_neg hcond]
    refine ⟨hcore, ⟨le_max_left 0 _, max_le (by norm_num) (min_le_left 1 _)⟩, ?_, ?_, ?_⟩
    · intro hlo
      have hmin : min 1 (units / bmax) = units / bmax :=
        min_eq_right (le_trans hlo (by norm_num))
      have hr : max 0 (min 1 (units / bmax)) ≤ 1/10 := by
        rw [hmin]
        exact max_le (by norm_num) hlo
      rw [hcore]
      show choroplethFill (max 0 (min 1 (units / bmax))) = "#f7fcf5"
      unfold choroplethFill
      rw [if_pos hr]
    · intro hhi
      have hone : max 0 (min 1 (units / bmax)) = 1 := by
        rw [min_eq_left hhi]
        exact max_eq_right zero_le_one
      rw [hcore]
      show choroplethFill (max 0 (min 1 (units / bmax))) = "#006d2c"
      rw [hone]
      unfold choroplethFill
      rw [if_neg (by norm_num), if_neg (by norm_num), if_neg (by norm_num),
          if_neg (by norm_num), if_neg (by norm_num)]
    · rw [hcore]
      intro hcontra
      have := congrArg LayerStyle.fillOpacity hcontra
      simp [neutralBlockStyle] at this
      norm_num at this

theorem c6_choropleth_amended_witness :
    (resetBlockStyleCore true 200 50).fillColor = "#e5f5e0" := by
  have h := ((c6_choropleth_amended true 200 50).2 rfl (by norm_num)).1
  rw [h]
  show choroplethFill (max 0 (min 1 ((50 : ℚ) / 200))) = "#e5f5e0"
  have hq : max 0 (min 1 ((50 : ℚ) / 200)) = 1/4 := by norm_num
  rw [hq]
  unfold choroplethFill
  rw [if_neg (by norm_num), if_pos (by norm_num)]

/-- Claim C9, counterexample: for a metric with `min_positive = 1` and
`max = 200` the claimed round trip `toSlider(fromSlider(x)) = x` fails at
`x = 200` inside [min_positive, max]: `fromSlider` clamps the position ratio
at 1, so the composite returns 100, not 200. -/
theorem c9_roundtrip_counterexample :
    toSlider 1 200 (fromSlider 1 1 200 200) = 100 ∧ (100 : ℝ) ≠ 200 := by
  have hlog : Real.log 200 ≠ 0 := ne_of_gt (Real.log_pos (by norm_num))
  have h1 : min 1 (max 0 ((200 : ℝ) / 100)) = 1 := by norm_num
  have hfrom : fromSlider 1 1 200 200 = 200 := by
    unfold fromSlider
    rw [if_neg (by rw [h1]; norm_num), h1, Real.log_one,
        max_eq_left (by norm_num : (1 : ℝ) ≤ 200), sub_zero, zero_add, one_mul,
        Real.exp_log (by norm_num : (0 : ℝ) < 200)]
  have hto : toSlider 1 200 200 = 100 := by
    unfold toSlider
    rw [if_neg (by norm_num : ¬ (200 : ℝ) ≤ 0), min_self,
        max_eq_right (by norm_num : (1 : ℝ) ≤ 200),
        max_eq_left (by norm_num : (1 : ℝ) ≤ 200), Real.log_one, sub_zero,
        div_self hlog, one_mul]
  exact ⟨by rw [hfrom, hto], by norm_num⟩

/-- Claim C9 (amended): for a logarithmic metric with positive `min_positive`
below `max`, values ≤ 0 map to slider position 0, and the round trip
`toSlider(fromSlider(x)) = x` holds exactly (over the reals) for
`x ∈ [min_positive, max]` with `x ≤ 100`; beyond position 100 the position
clamp of `fromSlider` breaks it, as the counterexample shows. -/
theorem c9_log_slider_amended (smin pmin M x v : ℝ) (hp : 0 < pmin) (hpM : pmin < M)
    (hx1 : pmin ≤ x) (hx2 : x ≤ M) (hx3 : x ≤ 100) (hv : v ≤ 0) :
    toSlider pmin M v = 0 ∧ toSlider pmin M (fromSlider smin pmin M x) = x := by
  have hM : max M pmin = M := max_eq_left hpM.le
  have hxpos : 0 < x := hp.trans_le hx1
  have hdelta : 0 < Real.log M - Real.log pmin := sub_pos.mpr (Real.log_lt_log hp hpM)
  have hrpos : 0 < x / 100 := by positivity
  have hr1 : max 0 (x / 100) = x / 100 := max_eq_right hrpos.le
  have hr2 : min 1 (x / 100) = x / 100 :=
    min_eq_right ((div_le_one (by norm_num)).mpr hx3)
  have hfrom : fromSlider smin pmin M x =
      Real.exp (Real.log pmin + x / 100 * (Real.log M - Real.log pmin)) := by
    unfold fromSlider
    rw [if_neg, hr1, hr2, hM]
    rw [hr1, hr2]
    intro hcontra
    exact absurd hcontra.1 (ne_of_gt hrpos)
  have hval_lb : Real.log pmin ≤ Real.log pmin + x / 100 * (Real.log M - Real.log pmin) := by
    nlinarith [hrpos.le, hdelta.le]
  have hval_ub : Real.log pmin + x / 100 * (Real.log M - Real.log pmin) ≤ Real.log M := by
    have hrle : x / 100 ≤ 1 := (div_le_one (by norm_num)).mpr hx3
    nlinarith [hdelta.le]
  have hexp_lb : pmin ≤ Real.exp (Real.log pmin + x / 100 * (Real.log M - Real.log pmin)) := by
    calc pmin = Real.exp (Real.log pmin) := (Real.exp_log hp).symm
    _ ≤ _ := Real.exp_le_exp.mpr hval_lb
  have hexp_ub : Real.exp (Real.log pmin + x / 100 * (Real.log M - Real.log pmin)) ≤ M := by
    calc Real.exp (Real.log pmin + x / 100 * (Real.log M - Real.log pmin))
        ≤ Real.exp (Real.log M) := Real.exp_le_exp.mpr hval_ub
    _ = M := Real.exp_log (hp.trans hpM)
  constructor
  · unfold toSlider
    rw [if_pos hv]
  · rw [hfrom]
    unfold toSlider
    rw [if_neg (not_le.mpr (Real.exp_pos _)), min_eq_left hexp_ub,
        max_eq_right hexp_lb, hM, Real.log_exp, add_sub_cancel_left,
        mul_div_assoc, div_self (ne_of_gt hdelta), mul_one]
    field_simp

theorem c9_log_slider_amended_witness :
    toSlider 1 2 0 = 0 ∧ toSlider 1 2 (fromSlider 1 1 2 1) = 1 :=
  c9_log_slider_amended 1 1 2 1 0 (by norm_num) (by norm_num) (by norm_num)
    (by norm_num) (by norm_num) (by norm_num)

theorem lookup_updEntry {α : Type} (ms : List (String × α)) (k mid : String) (f : α → α) :
    (updEntry ms k f).lookup mid =
      if mid = k then (ms.lookup mid).map f else ms.lookup mid := by
  induction ms with
  | nil => simp [updEntry]
  | cons p rest ih =>
    rcases p with ⟨pk, pv⟩
    simp only [updEntry]
    by_cases hpk : pk = k
    · rw [if_pos hpk]
      subst hpk
      by_cases hmid : mid = pk
      · subst hmid
        simp [List.lookup_cons]
      · have hbeq : (mid == pk) = false := beq_eq_false_iff_ne.mpr hmid
        simp [List.lookup_cons, hbeq, ih, hmid]
    · rw [if_neg hpk]
      by_cases hmid : mid = pk
      · subst hmid
        simp [List.lookup_cons, hpk]
      · have hbeq : (mid == pk) = false := beq_eq_false_iff_ne.mpr hmid
        simp [List.lookup_cons, hbeq, ih]

theorem lookup_updEntry_ne {α : Type} (ms : List (String × α)) (k mid : String)
    (f : α → α) (h : mid ≠ k) :
    (updEntry ms k f).lookup mid = ms.lookup mid := by
  rw [lookup_updEntry, if_neg h]

theorem lookup_map_updEntry {α γ : Type} (g : α → γ) (f : α → α)
    (hf : ∀ x, g (f x) = g x) (ms : List (String × α)) (k mid : String) :
    ((updEntry ms k f).lookup mid).map g = (ms.lookup mid).map g := by
  rw [lookup_updEntry]
  split_ifs with h
  · cases ms.lookup mid <;> simp [hf]
  · rfl

theorem lookup_eq_none_of_forall_ne {α : Type} (l : List (String × α)) (k : String)
    (h : ∀ p ∈ l, p.1 ≠ k) : l.lookup k = none := by
  induction l with
  | nil => rfl
  | cons p rest ih =>
    rcases p with ⟨pk, pv⟩
    have hp : (k == pk) = false := by
      simp only [beq_eq_false_iff_ne, ne_eq]
      exact fun hc => h (pk, pv) (by simp) hc.symm
    simp only [List.lookup_cons, hp]
    exact ih (fun q hq => h q (by simp [hq]))

theorem lookup_isFiltered_setBlockSelectionMarkers (ms : List (String × Marker))
    (ids : List String) (sel : Bool) (mid : String) :
    ((setBlockSelectionMarkers ms ids sel).lookup mid).map Marker.isFiltered =
      (ms.lookup mid).map Marker.isFiltered := by
  unfold setBlockSelectionMarkers
  induction ids generalizing ms with
  | nil => rfl
  | cons i rest ih =>
    rw [List.foldl_cons, ih]
    exact lookup_map_updEntry Marker.isFiltered _ (fun m => adjust_isFiltered m _) ms i mid

theorem setOwnerSelectionIds_eq_setBlockSelectionMarkers :
    @setOwnerSelectionIds = @setBlockSelectionMarkers := rfl

theorem phase1Step_markers_other (cfg : FilterCfg)
    (membership : List (String × List MemberRecord)) (acc : P1Acc) (row : Row)
    (mid : String) (h : mid ≠ row.bid) :
    (phase1Step cfg membership acc row).markers.lookup mid = acc.markers.lookup mid := by
  simp only [phase1Step]
  rw [lookup_updEntry_ne _ _ _ _ h, lookup_updEntry_ne _ _ _ _ h]
  split_ifs
  · rw [lookup_updEntry_ne _ _ _ _ h, lookup_updEntry_ne _ _ _ _ h]
  · rw [lookup_updEntry_ne _ _ _ _ h]

theorem phase1_markers_other (cfg : FilterCfg)
    (membership : List (String × List MemberRecord)) (rows : List Row) (acc : P1Acc)
    (mid : String) (h : ∀ r ∈ rows, mid ≠ r.bid) :
    (rows.foldl (phase1Step cfg membership) acc).markers.lookup mid =
      acc.markers.lookup mid := by
  induction rows generalizing acc with
  | nil => rfl
  | cons r rest ih =>
    rw [List.foldl_cons, ih _ (fun q hq => h q (by simp [hq])),
        phase1Step_markers_other cfg membership acc r mid (h r (by simp))]

theorem phase1Step_visible (cfg : FilterCfg)
    (membership : List (String × List MemberRecord)) (acc : P1Acc) (r : Row) :
    (phase1Step cfg membership acc r).visible =
      if rowMatches cfg r then acc.visible ++ [r.bid] else acc.visible := rfl

theorem phase1_visible (cfg : FilterCfg)
    (membership : List (String × List MemberRecord)) (rows : List Row) (acc : P1Acc) :
    (rows.foldl (phase1Step cfg membership) acc).visible =
      acc.visible ++ (rows.filter (fun r => rowMatches cfg r)).map Row.bid := by
  induction rows generalizing acc with
  | nil => simp
  | cons r rest ih =>
    rw [List.foldl_cons, ih, phase1Step_visible]
    by_cases hm : rowMatches cfg r
    · rw [if_pos hm, List.filter_cons_of_pos (by simpa using hm), List.map_cons]
      simp
    · rw [if_neg hm, List.filter_cons_of_neg (by simpa using hm)]

theorem setBlockFiltered_isFiltered (b : Block) (v : Bool) :
    (setBlockFiltered b v).isFiltered = v := by
  cases v
  · rw [setBlockFiltered_false_eq]
  · rw [setBlockFiltered_true_eq]

theorem phase2Step_blocks_other (visible : List String) (acc : P2Acc)
    (e : String × List String) (blockId : String) (h : blockId ≠ e.1) :
    ((phase2Step visible acc e).blocks).lookup blockId = acc.blocks.lookup blockId := by
  simp only [phase2Step]
  rw [lookup_updEntry_ne _ _ _ _ h]
  split
  · split_ifs
    · dsimp only
      rw [lookup_updEntry_ne _ _ _ _ h]
    · rfl
  · rfl

theorem phase2Step_blocks_self (visible : List String) (acc : P2Acc)
    (e : String × List String) :
    (((phase2Step visible acc e).blocks).lookup e.1).map Block.isFiltered =
      (acc.blocks.lookup e.1).map
        (fun _ => !(e.2.any (fun id => visible.contains id))) := by
  simp only [phase2Step]
  rw [lookup_updEntry, if_pos rfl]
  split
  · split_ifs
    · dsimp only
      rw [lookup_updEntry, if_pos rfl]
      cases acc.blocks.lookup e.1 <;> simp [setBlockFiltered_isFiltered]
    · dsimp only
      cases acc.blocks.lookup e.1 <;> simp [setBlockFiltered_isFiltered]
  · dsimp only
    cases acc.blocks.lookup e.1 <;> simp [setBlockFiltered_isFiltered]

theorem phase2Step_markers_isFiltered (visible : List String) (acc : P2Acc)
    (e : String × List String) (mid : String) :
    (((phase2Step visible acc e).markers).lookup mid).map Marker.isFiltered =
      (acc.markers.lookup mid).map Marker.isFiltered := by
  simp only [phase2Step]
  split
  · split_ifs
    · dsimp only
      exact lookup_isFiltered_setBlockSelectionMarkers acc.markers e.2 false mid
    · rfl
  · rfl

theorem phase2_markers_isFiltered (visible : List String)
    (bb : List (String × List String)) (acc : P2Acc) (mid : String) :
    (((bb.foldl (phase2Step visible) acc).markers).lookup mid).map Marker.isFiltered =
      (acc.markers.lookup mid).map Marker.isFiltered := by
  induction bb generalizing acc with
  | nil => rfl
  | cons e rest ih =>
    rw [List.foldl_cons, ih, phase2Step_markers_isFiltered]

theorem phase2_blocks_lookup_of_notmem (visible : List String)
    (bb : List (String × List String)) (acc : P2Acc) (blockId : String)
    (h : bb.lookup blockId = none) :
    ((bb.foldl (phase2Step visible) acc).blocks).lookup blockId =
      acc.blocks.lookup blockId := by
  induction bb generalizing acc with
  | nil => rfl
  | cons e rest ih =>
    rcases e with ⟨ek, ids⟩
    by_cases hbe : blockId = ek
    · exfalso
      rw [List.lookup_cons] at h
      simp [beq_iff_eq.mpr hbe] at h
    · have hrest : rest.lookup blockId = none := by
        rw [List.lookup_cons] at h
        simpa [beq_eq_false_iff_ne.mpr hbe] using h
      rw [List.foldl_cons, ih _ hrest,
          phase2Step_blocks_other visible acc (ek, ids) blockId hbe]

theorem phase2_blocks_lookup_of_mem (visible : List String)
    (bb : List (String × List String)) (acc : P2Acc) (blockId : String)
    (ids : List String) (h : bb.lookup blockId = some ids)
    (hnd : (bb.map Prod.fst).Nodup) :
    (((bb.foldl (phase2Step visible) acc).blocks).lookup blockId).map Block.isFiltered =
      (acc.blocks.lookup blockId).map
        (fun _ => !(ids.any (fun id => visible.contains id))) := by
  induction bb generalizing acc with
  | nil => simp [List.lookup] at h
  | cons e rest ih =>
    rcases e with ⟨ek, eids⟩
    rw [List.foldl_cons]
    by_cases hbe : blockId = ek
    · subst hbe
      have hids : eids = ids := by
        rw [List.lookup_cons] at h
        simpa using h
      subst hids
      have hrest : rest.lookup blockId = none := by
        apply lookup_eq_none_of_forall_ne
        intro p hp hc
        have hmem : p.1 ∈ rest.map Prod.fst := List.mem_map_of_mem _ hp
        rw [hc] at hmem
        exact (List.nodup_cons.mp hnd).1 hmem
      rw [phase2_blocks_lookup_of_notmem visible rest _ blockId hrest]
      exact phase2Step_blocks_self visible acc (blockId, eids)
    · have hrest : rest.lookup blockId = some ids := by
        rw [List.lookup_cons] at h
        simpa [beq_eq_false_iff_ne.mpr hbe] using h
      rw [ih _ hrest (List.nodup_cons.mp hnd).2,
          phase2Step_blocks_other visible acc (ek, eids) blockId hbe]

theorem updFirstBlockRow_unchecked (brs : List BlockRow) (id : String)
    (f : BlockRow → BlockRow) (hf : ∀ r, (f r).checked = r.checked)
    (h : ∀ r ∈ brs, r.checked = false) :
    ∀ r ∈ updFirstBlockRow brs id f, r.checked = false := by
  induction brs with
  | nil => intro r hr; simp [updFirstBlockRow] at hr
  | cons b rest ih =>
    intro r hr
    simp only [updFirstBlockRow] at hr
    split_ifs at hr with hid
    · rcases List.mem_cons.mp hr with h1 | h2
      · rw [h1, hf]; exact h b (by simp)
      · exact h r (by simp [h2])
    · rcases List.mem_cons.mp hr with h1 | h2
      · rw [h1]; exact h b (by simp)
      · exact ih (fun q hq => h q (by simp [hq])) r h2

theorem phase2Step_unchecked (visible : List String) (acc : P2Acc)
    (e : String × List String) (h : ∀ r ∈ acc.brows, r.checked = false) :
    (phase2Step visible acc e).markers = acc.markers ∧
    (∀ r ∈ (phase2Step visible acc e).brows, r.checked = false) := by
  constructor
  · simp only [phase2Step]
    cases hfind : acc.brows.find? (fun r => r.blockId == e.1) with
    | none => simp only [hfind]
    | some r =>
      have hrc : r.checked = false := h r (List.mem_of_find?_eq_some hfind)
      have hcond : ¬ ((e.2.any (fun id => visible.contains id)) = false ∧
          r.checked = true) := by
        intro hcon
        rw [hrc] at hcon
        exact absurd hcon.2 (by simp)
      simp only [hfind]
      rw [if_neg hcond]
  · simp only [phase2Step]
    cases hfind : acc.brows.find? (fun r => r.blockId == e.1) with
    | none =>
      simp only [hfind]
      exact updFirstBlockRow_unchecked acc.brows e.1 _ (fun r => rfl) h
    | some r =>
      have hrc : r.checked = false := h r (List.mem_of_find?_eq_some hfind)
      have hcond : ¬ ((e.2.any (fun id => visible.contains id)) = false ∧
          r.checked = true) := by
        intro hcon
        rw [hrc] at hcon
        exact absurd hcon.2 (by simp)
      simp only [hfind]
      rw [if_neg hcond]
      exact updFirstBlockRow_unchecked acc.brows e.1 _ (fun r => rfl) h

theorem phase2_markers_of_unchecked (visible : List String)
    (bb : List (String × List String)) (acc : P2Acc)
    (h : ∀ r ∈ acc.brows, r.checked = false) :
    (bb.foldl (phase2Step visible) acc).markers = acc.markers := by
  induction bb generalizing acc with
  | nil => rfl
  | cons e rest ih =>
    obtain ⟨hm, hb⟩ := phase2Step_unchecked visible acc e h
    rw [List.foldl_cons, ih _ hb, hm]

theorem phase3Step_markers_isFiltered (ownerIdx : List (String × List String))
    (rows : List Row) (acc : P3Acc) (orow : OwnerRow) (mid : String) :
    (((phase3Step ownerIdx rows acc orow).markers).lookup mid).map Marker.isFiltered =
      (acc.markers.lookup mid).map Marker.isFiltered := by
  simp only [phase3Step]
  split_ifs
  · dsimp only
    exact lookup_isFiltered_setBlockSelectionMarkers acc.markers _ false mid
  · rfl

theorem phase3_markers_isFiltered (ownerIdx : List (String × List String))
    (rows : List Row) (orows : List OwnerRow) (acc : P3Acc) (mid : String) :
    (((orows.foldl (phase3Step ownerIdx rows) acc).markers).lookup mid).map
        Marker.isFiltered =
      (acc.markers.lookup mid).map Marker.isFiltered := by
  induction orows generalizing acc with
  | nil => rfl
  | cons o rest ih =>
    rw [List.foldl_cons, ih, phase3Step_markers_isFiltered]

theorem phase3Step_markers_of_unchecked (ownerIdx : List (String × List String))
    (rows : List Row) (acc : P3Acc) (orow : OwnerRow) (h : orow.checked = false) :
    (phase3Step ownerIdx rows acc orow).markers = acc.markers := by
  simp only [phase3Step]
  have hcond : ¬ ((rows.any (fun r => r.owner == orow.owner && !r.hidden)) = false ∧
      orow.checked = true) := by
    intro hcon
    rw [h] at hcon
    exact absurd hcon.2 (by simp)
  rw [if_neg hcond]

theorem phase3_markers_of_unchecked (ownerIdx : List (String × List String))
    (rows : List Row) (orows : List OwnerRow) (acc : P3Acc)
    (h : ∀ o ∈ orows, o.checked = false) :
    (orows.foldl (phase3Step ownerIdx rows) acc).markers = acc.markers := by
  induction orows generalizing acc with
  | nil => rfl
  | cons o rest ih =>
    rw [List.foldl_cons, ih _ (fun q hq => h q (by simp [hq])),
        phase3Step_markers_of_unchecked ownerIdx rows acc o (h o (by simp))]

/-- Claim C3, counterexample: in `sysZ` block "Z" has no entry in
`blockBuildingIndex` (zero linked buildings), so the filter pass never calls
`setBlockFiltered` for it and it stays visible (`isFiltered = false`),
contradicting "a block with zero linked buildings is never visible". -/
theorem c3_block_counterexample :
    sysZ.bbIndex.lookup "Z" = none ∧
    ((applyFilters cfgHoodX sysZ).blocks.lookup "Z").map Block.isFiltered =
      some false := by
  decide

/-- Claim C3 (amended): after a filter pass, a block with at least one linked
building (an entry in `blockBuildingIndex`) is visible iff some linked
building id belongs to a table row passing the current filter; a block with no
entry in `blockBuildingIndex` is left entirely untouched by the pass (so an
initially visible zero-building block stays visible). -/
theorem c3_block_visibility_amended (cfg : FilterCfg) (s : Sys) (blockId : String)
    (hnd : (s.bbIndex.map Prod.fst).Nodup) :
    (s.bbIndex.lookup blockId = none →
      (applyFilters cfg s).blocks.lookup blockId = s.blocks.lookup blockId) ∧
    (∀ ids, s.bbIndex.lookup blockId = some ids →
      ((applyFilters cfg s).blocks.lookup blockId).map Block.isFiltered =
        (s.blocks.lookup blockId).map (fun _ =>
          !(ids.any (fun id =>
            ((s.rows.filter (fun r => rowMatches cfg r)).map Row.bid).contains id)))) := by
  have hblocks : (applyFilters cfg s).blocks =
      (s.bbIndex.foldl (phase2Step (phase1 cfg s).visible)
        { markers := (phase1 cfg s).markers, blocks := s.blocks,
          brows := s.blockRows }).blocks := rfl
  have hvis : (phase1 cfg s).visible =
      (s.rows.filter (fun r => rowMatches cfg r)).map Row.bid := by
    unfold phase1
    rw [phase1_visible]
    simp
  constructor
  · intro hnone
    rw [hblocks, phase2_blocks_lookup_of_notmem _ _ _ _ hnone]
  · intro ids hsome
    rw [hblocks, ← hvis, phase2_blocks_lookup_of_mem _ _ _ _ ids hsome hnd]

theorem c3_block_visibility_amended_witness :
    ((applyFilters cfgHoodX sysZ).blocks.lookup "A").map Block.isFiltered =
      (sysZ.blocks.lookup "A").map (fun _ =>
        !((["m1"] : List String).any (fun id =>
          ((sysZ.rows.filter (fun r => rowMatches cfgHoodX r)).map Row.bid).contains id))) :=
  (c3_block_visibility_amended cfgHoodX sysZ "A" (by decide)).2 ["m1"] (by decide)

/-- Claim C10, counterexample: marker "m2" is in `buildingIndex` but is not
the `data-bid` of any buildings-table row; it holds one selection reference
contributed by the check-selected row of its block "B".  A filter pass that
hides "B" unchecks that row and runs `setBlockSelectionMarkers(B, false)`,
which decrements "m2" from 1 to 0 — `applyFilters` does not leave non-row
markers' `selectionRefCount` unchanged. -/
theorem c10_frame_counterexample :
    (sysCascade.rows.map Row.bid).contains "m2" = false ∧
    (sysCascade.markers.lookup "m2").map Marker.selectionRefs = some 1 ∧
    ((applyFilters cfgHoodX sysCascade).markers.lookup "m2").map Marker.selectionRefs =
      some 0 := by
  decide

/-- Claim C10 (amended): a filter pass never changes the `isFiltered` flag of
a marker whose building id is not the `data-bid` of any buildings-table row
(only row markers go through `setMarkerVisibility`); and when no blocks-table
or landlords-table checkbox is checked, such a marker is left entirely
unchanged — its refcount and style can change only through the block/owner
deselection cascade of a checked row that becomes hidden. -/
theorem c10_frame_amended (cfg : FilterCfg) (s : Sys) (mid : String)
    (hrow : ∀ r ∈ s.rows, mid ≠ r.bid) :
    (((applyFilters cfg s).markers.lookup mid).map Marker.isFiltered =
      (s.markers.lookup mid).map Marker.isFiltered) ∧
    ((∀ br ∈ s.blockRows, br.checked = false) →
     (∀ orow ∈ s.ownerRows, orow.checked = false) →
      (applyFilters cfg s).markers.lookup mid = s.markers.lookup mid) := by
  have hmk : (applyFilters cfg s).markers =
      (s.ownerRows.foldl (phase3Step s.ownerIndex (phase1 cfg s).rows)
        { markers := (s.bbIndex.foldl (phase2Step (phase1 cfg s).visible)
            { markers := (phase1 cfg s).markers, blocks := s.blocks,
              brows := s.blockRows }).markers,
          orows := [] }).markers := rfl
  have hp1 : (phase1 cfg s).markers.lookup mid = s.markers.lookup mid := by
    unfold phase1
    rw [phase1_markers_other _ _ _ _ _ hrow]
  constructor
  · rw [hmk, phase3_markers_isFiltered, phase2_markers_isFiltered, hp1]
  · intro hbr hor
    rw [hmk, phase3_markers_of_unchecked _ _ _ _ hor,
        phase2_markers_of_unchecked _ _ _ hbr, hp1]

theorem c10_frame_amended_witness :
    ((applyFilters cfgHoodX sysCascade).markers.lookup "m2").map Marker.isFiltered =
      (sysCascade.markers.lookup "m2").map Marker.isFiltered :=
  (c10_frame_amended cfgHoodX sysCascade "m2" (by decide)).1

end Wiring
